import Mathlib

/-!
Shallow embedding of the decision and risk engine of the clawdpm trading
agent: the market scanner heuristics (src/lib/market-scanner.ts), the Kelly
based position sizer and safety breaker (src/lib/risk-manager.ts), the LLM
analyzer conversion (llm-analyzer, analysisToOpportunity) and the execution
cycle portfolio updates (src/lib/auto-executor.ts).

Numbers are modelled as exact rationals; JavaScript Date, ids and the random
oracles of the simulator (success draw, slippage draw) are passed in as
explicit parameters.  Display-only fields of the data model (slug, endDate,
category, image, timestamps) that no modelled function reads are omitted.
-/

namespace Clawdpm

/-- Strategy tag of an opportunity, from types/polymarket.ts. -/
inductive Strategy
  | UNDERVALUED
  | OVERVALUED
  deriving DecidableEq, Repr

/-- Recommended side of a bet, from types/polymarket.ts. -/
inductive BetSide
  | YES
  | NO
  deriving DecidableEq, Repr

/-- LLM analyzer recommendation, from llm-analyzer.ts. -/
inductive Recommendation
  | YES
  | NO
  | SKIP
  deriving DecidableEq, Repr

/-- Trade status, from types/polymarket.ts. -/
inductive TradeStatus
  | PENDING
  | FILLED
  | CANCELLED
  | FAILED
  deriving DecidableEq, Repr

/-- Order side, from types/polymarket.ts. -/
inductive OrderSide
  | BUY
  | SELL
  deriving DecidableEq, Repr

/-- Outcome of a market (types/polymarket.ts); price is the implied probability. -/
structure Outcome where
  id : String
  name : String
  price : ℚ
  deriving DecidableEq, Repr

/-- Market snapshot (types/polymarket.ts), restricted to the fields the engine reads. -/
structure Market where
  id : String
  question : String
  liquidity : ℚ
  volume : ℚ
  outcomes : List Outcome
  active : Bool
  closed : Bool
  deriving DecidableEq, Repr

/-- Aggregate holding per (marketId, outcome), from types/polymarket.ts. -/
structure Position where
  marketId : String
  marketQuestion : String
  outcome : String
  shares : ℚ
  avgPrice : ℚ
  currentPrice : ℚ
  pnl : ℚ
  pnlPercent : ℚ
  isSimulated : Bool
  deriving DecidableEq, Repr

/-- A trade record, from types/polymarket.ts (timestamp omitted). -/
structure Trade where
  id : String
  marketId : String
  marketQuestion : String
  outcome : String
  side : OrderSide
  shares : ℚ
  price : ℚ
  total : ℚ
  status : TradeStatus
  isSimulated : Bool
  deriving DecidableEq, Repr

/-- A scored betting opportunity, from types/polymarket.ts
(optional reasoning and keyFactors omitted: no modelled function reads them). -/
structure BettingOpportunity where
  market : Market
  outcome : Outcome
  strategy : Strategy
  recommendedBet : BetSide
  confidence : ℚ
  suggestedAmount : ℚ
  expectedValue : ℚ
  deriving DecidableEq, Repr

/-- Safety limit configuration, from types/polymarket.ts. -/
structure SafetyLimits where
  maxBetSize : ℚ
  maxDailyLoss : ℚ
  maxTotalExposure : ℚ
  maxPositionPercent : ℚ
  minLiquidity : ℚ
  deriving DecidableEq, Repr

/-- The aggregate agent state, from types/polymarket.ts
(lastScanTime and marketsScanned omitted: display only). -/
structure AgentState where
  isRunning : Bool
  bankroll : ℚ
  todayPnL : ℚ
  totalPnL : ℚ
  positions : List Position
  trades : List Trade
  opportunities : List BettingOpportunity
  safetyTriggered : Bool
  safetyReason : Option String
  deriving DecidableEq, Repr

/-- Agent configuration (types/polymarket.ts), restricted to the fields the
modelled functions read (credentials and interval are handled by the I/O layer). -/
structure AgentConfig where
  safetyLimits : SafetyLimits
  undervaluedThreshold : ℚ
  overvaluedThreshold : ℚ
  autoExecute : Bool
  simulationMode : Bool
  deriving DecidableEq, Repr

/-- Result of the LLM analyzer, interface LLMAnalysis in llm-analyzer.ts. -/
structure LLMAnalysis where
  market : Market
  reasoning : String
  predictedProbability : ℚ
  confidence : ℚ
  recommendation : Recommendation
  keyFactors : List String
  deriving DecidableEq, Repr

/-- Renders a nonnegative count of hundredths as a fixed two decimal string,
helper for `toFixed2`. -/
def toFixed2Nat (n : Nat) : String :=
  toString (n / 100) ++ "." ++ (if n % 100 < 10 then "0" else "") ++ toString (n % 100)

/-- JavaScript x.toFixed(2): round to the nearest hundredth and print with two
decimals.  On exact ties JavaScript rounds toward the larger value; the
modelled functions only format values that are not ties. -/
def toFixed2 (q : ℚ) : String :=
  if q < 0 then "-" ++ toFixed2Nat (⌊-q * 100 + 1 / 2⌋.toNat)
  else toFixed2Nat (⌊q * 100 + 1 / 2⌋.toNat)

/-- JavaScript x.toFixed(0): round to the nearest integer and print it. -/
def toFixed0 (q : ℚ) : String :=
  if q < 0 then "-" ++ toString (⌊-q + 1 / 2⌋.toNat)
  else toString (⌊q + 1 / 2⌋.toNat)

/-- JavaScript template interpolation of a number; faithful for integral
values, the only ones the modelled code interpolates without toFixed. -/
def jsNumToString (q : ℚ) : String :=
  if q.den = 1 then toString q.num else toString q.num ++ "/" ++ toString q.den

/-- JavaScript s.toLowerCase() on ASCII strings. -/
def lowerString (s : String) : String :=
  String.mk (s.data.map Char.toLower)

/-- Math.floor(q * 100) / 100, the two decimal floor used by calculatePositionSize. -/
def floor2 (q : ℚ) : ℚ :=
  (⌊q * 100⌋ : ℚ) / 100

/-! ## RiskManager (src/lib/risk-manager.ts) -/

/-- The clamped fractional Kelly bankroll fraction computed inside
RiskManager.calculateKellyBet: the side is chosen by comparing the probability
argument with the market price, half Kelly is applied and the fraction is
clamped to [0, 0.1]. -/
def kellyBetFraction (probability marketPrice : ℚ) : ℚ :=
  let op : ℚ × ℚ :=
    if marketPrice < probability then ((1 - marketPrice) / marketPrice, probability)
    else (marketPrice / (1 - marketPrice), 1 - probability)
  let odds := op.1
  let p := op.2
  let q := 1 - p
  let kelly := (odds * p - q) / odds
  let fractionalKelly := kelly * 0.5
  max 0 (min fractionalKelly 0.1)

/-- RiskManager.calculateKellyBet. -/
def calculateKellyBet (probability marketPrice bankroll : ℚ) : ℚ :=
  bankroll * kellyBetFraction probability marketPrice

/-- Sum of cost bases, positions.reduce((sum, p) => sum + p.shares * p.avgPrice, 0). -/
def totalExposure (positions : List Position) : ℚ :=
  positions.foldl (fun sum p => sum + p.shares * p.avgPrice) 0

/-- RiskManager.isSafetyBreached; `some reason` models breached = true. -/
def isSafetyBreached (limits : SafetyLimits) (state : AgentState) : Option String :=
  if state.todayPnL < -limits.maxDailyLoss then
    some ("Daily loss limit reached: $" ++ toFixed2 |state.todayPnL| ++ " > $"
      ++ jsNumToString limits.maxDailyLoss)
  else if limits.maxTotalExposure ≤ totalExposure state.positions then
    some ("Maximum exposure reached: $" ++ toFixed2 (totalExposure state.positions))
  else if state.bankroll < limits.maxBetSize then
    some ("Bankroll too low: $" ++ toFixed2 state.bankroll)
  else none

/-- RiskManager.calculatePositionSize. -/
def calculatePositionSize (limits : SafetyLimits) (opportunity : BettingOpportunity)
    (state : AgentState) : ℚ :=
  if (isSafetyBreached limits state).isSome then 0
  else
    let remainingExposure := limits.maxTotalExposure - totalExposure state.positions
    let marketPositions := state.positions.filter (fun p => p.marketId == opportunity.market.id)
    let remainingMarketExposure :=
      state.bankroll * limits.maxPositionPercent - totalExposure marketPositions
    let kellyBet := calculateKellyBet opportunity.confidence opportunity.outcome.price state.bankroll
    let suggestedSize :=
      min kellyBet (min limits.maxBetSize
        (min remainingExposure (min remainingMarketExposure (state.bankroll * 0.05))))
    max 0 (floor2 suggestedSize)

/-- RiskManager.validateOpportunity; `some reason` models valid = false. -/
def validateOpportunity (limits : SafetyLimits) (opportunity : BettingOpportunity) :
    Option String :=
  if opportunity.market.liquidity < limits.minLiquidity then
    some ("Insufficient liquidity: $" ++ toFixed0 opportunity.market.liquidity ++ " < $"
      ++ jsNumToString limits.minLiquidity)
  else if !opportunity.market.active || opportunity.market.closed then
    some "Market is not active"
  else if opportunity.expectedValue ≤ 0 then
    some "Negative expected value"
  else if opportunity.confidence < 0.55 then
    some "Confidence too low"
  else none

/-- DEFAULT_SAFETY_LIMITS of risk-manager.ts. -/
def DEFAULT_SAFETY_LIMITS : SafetyLimits :=
  { maxBetSize := 10
    maxDailyLoss := 50
    maxTotalExposure := 200
    maxPositionPercent := 0.1
    minLiquidity := 1000 }

/-- Modelled after the specification text of §4.3 bet sizing, for comparison
with the implementation: for a YES bet odds = (1-price)/price and
p = predictedProbability, for a NO bet odds = price/(1-price) and
p = 1 - predictedProbability; kelly = (odds*p - (1-p))/odds, half Kelly,
clamp to [0, 0.10], times bankroll. -/
def kellyBetSpec (predictedProbability marketPrice bankroll : ℚ) (bet : BetSide) : ℚ :=
  let odds := match bet with
    | BetSide.YES => (1 - marketPrice) / marketPrice
    | BetSide.NO => marketPrice / (1 - marketPrice)
  let p := match bet with
    | BetSide.YES => predictedProbability
    | BetSide.NO => 1 - predictedProbability
  let kelly := (odds * p - (1 - p)) / odds
  bankroll * max 0 (min (kelly * 0.5) 0.1)

/-! ## MarketScanner (src/lib/market-scanner.ts) -/

/-- MarketScanner.estimateTrueProbability: asymmetric mean reversion toward 0.5. -/
def estimateTrueProbability (marketPrice : ℚ) (strategy : Strategy) : ℚ :=
  match strategy with
  | Strategy.UNDERVALUED => marketPrice + (0.5 - marketPrice) * 0.3
  | Strategy.OVERVALUED => marketPrice - (marketPrice - 0.5) * 0.25

/-- MarketScanner.analyzeOutcome: score one outcome, emitting an opportunity
when the price clears a threshold and the expected value exceeds 0.05. -/
def analyzeOutcome (config : AgentConfig) (market : Market) (outcome : Outcome) :
    Option BettingOpportunity :=
  let price := outcome.price
  let undervalued : Option BettingOpportunity :=
    if price < config.undervaluedThreshold then
      let estimatedProb := estimateTrueProbability price Strategy.UNDERVALUED
      let potentialReturn := 1 / price - 1
      let expectedValue := estimatedProb * potentialReturn - (1 - estimatedProb) * 1
      if 0.05 < expectedValue then
        some { market := market, outcome := outcome, strategy := Strategy.UNDERVALUED,
               recommendedBet := BetSide.YES, confidence := estimatedProb,
               suggestedAmount := 0, expectedValue := expectedValue }
      else none
    else none
  match undervalued with
  | some o => some o
  | none =>
    if config.overvaluedThreshold < price then
      let estimatedProb := estimateTrueProbability price Strategy.OVERVALUED
      let noPrice := 1 - price
      let potentialReturn := 1 / noPrice - 1
      let winProb := 1 - estimatedProb
      let expectedValue := winProb * potentialReturn - (1 - winProb) * 1
      if 0.05 < expectedValue then
        some { market := market, outcome := outcome, strategy := Strategy.OVERVALUED,
               recommendedBet := BetSide.NO, confidence := 1 - estimatedProb,
               suggestedAmount := 0, expectedValue := expectedValue }
      else none
    else none

/-- Ranking relation of the scanner output: higher expected value first. -/
def evGE (a b : BettingOpportunity) : Prop :=
  b.expectedValue ≤ a.expectedValue

instance : DecidableRel evGE :=
  fun a b => inferInstanceAs (Decidable (b.expectedValue ≤ a.expectedValue))

/-- MarketScanner.scanForOpportunities over a fetched market list: drop
markets with low liquidity or inactive or closed, analyze every outcome of
the survivors, and rank by descending expected value. -/
def scanForOpportunities (config : AgentConfig) (markets : List Market) :
    List BettingOpportunity :=
  let surviving := markets.filter (fun m =>
    decide (config.safetyLimits.minLiquidity ≤ m.liquidity) && (m.active && !m.closed))
  let opportunities := surviving.flatMap (fun m =>
    m.outcomes.filterMap (fun o => analyzeOutcome config m o))
  List.insertionSort evGE opportunities

/-! ## LLMAnalyzer (llm-analyzer.ts) -/

/-- market.outcomes.find(o => o.name.toLowerCase() === "yes"). -/
def findYesOutcome (market : Market) : Option Outcome :=
  market.outcomes.find? (fun o => lowerString o.name == "yes")

/-- LLMAnalyzer.analysisToOpportunity: convert an analysis into an
opportunity, dropping SKIP recommendations and expected values at or
below 0.03. -/
def analysisToOpportunity (analysis : LLMAnalysis) : Option BettingOpportunity :=
  if analysis.recommendation = Recommendation.SKIP then none
  else
    match findYesOutcome analysis.market with
    | none => none
    | some yesOutcome =>
      let marketPrice := yesOutcome.price
      let expectedValue :=
        if analysis.recommendation = Recommendation.YES then
          analysis.predictedProbability * (1 / marketPrice - 1)
            - (1 - analysis.predictedProbability) * 1
        else
          (1 - analysis.predictedProbability) * (1 / (1 - marketPrice) - 1)
            - analysis.predictedProbability * 1
      if expectedValue ≤ 0.03 then none
      else
        some { market := analysis.market
               outcome := yesOutcome
               strategy := if marketPrice < analysis.predictedProbability
                 then Strategy.UNDERVALUED else Strategy.OVERVALUED
               recommendedBet := if analysis.recommendation = Recommendation.YES
                 then BetSide.YES else BetSide.NO
               confidence := analysis.confidence
               suggestedAmount := 0
               expectedValue := expectedValue }

/-! ## AutoExecutor (src/lib/auto-executor.ts) -/

/-- The Position created by AutoExecutor.addPosition when no position with the
trade key exists. -/
def newPositionOfTrade (trade : Trade) : Position :=
  { marketId := trade.marketId
    marketQuestion := trade.marketQuestion
    outcome := trade.outcome
    shares := trade.shares
    avgPrice := trade.price
    currentPrice := trade.price
    pnl := 0
    pnlPercent := 0
    isSimulated := trade.isSimulated }

/-- AutoExecutor.addPosition: update the first position matching the trade key
with the volume weighted average cost, or append a new position. -/
def addPosition : List Position → Trade → List Position
  | [], trade => [newPositionOfTrade trade]
  | p :: ps, trade =>
    if p.marketId = trade.marketId ∧ p.outcome = trade.outcome then
      let totalShares := p.shares + trade.shares
      let totalCost := p.shares * p.avgPrice + trade.total
      { p with shares := totalShares, avgPrice := totalCost / totalShares,
               isSimulated := trade.isSimulated } :: ps
    else
      p :: addPosition ps trade

/-- AutoExecutor.executeSimulatedTrade; the success draw (Math.random() > 0.02)
and the slippage factor (1 + Math.random() * 0.01) are explicit arguments. -/
def executeSimulatedTrade (success : Bool) (slippage : ℚ) (trade : Trade)
    (opportunity : BettingOpportunity) (state : AgentState) : Trade × AgentState :=
  if success then
    let fillPrice := min 0.99 (opportunity.outcome.price * slippage)
    let filled :=
      { trade with
          price := fillPrice
          shares := trade.total / fillPrice
          status := TradeStatus.FILLED }
    (filled,
      { state with
          positions := addPosition state.positions filled
          bankroll := state.bankroll - filled.total })
  else
    ({ trade with status := TradeStatus.FAILED }, state)

/-- AutoExecutor.executeLiveTrade; hasCredentials and the order placement
result are explicit arguments, the simulated draws serve the fallback path. -/
def executeLiveTrade (hasCredentials orderSuccess simSuccess : Bool) (slippage : ℚ)
    (trade : Trade) (opportunity : BettingOpportunity) (state : AgentState) :
    Trade × AgentState :=
  if !hasCredentials then
    executeSimulatedTrade simSuccess slippage { trade with isSimulated := true }
      opportunity state
  else if orderSuccess then
    let filled := { trade with status := TradeStatus.FILLED }
    (filled,
      { state with
          positions := addPosition state.positions filled
          bankroll := state.bankroll - filled.total })
  else
    ({ trade with status := TradeStatus.FAILED }, state)

/-- Environment of one trade execution: the generated trade id and the
external draws (simulation success, slippage, credentials, live order result). -/
structure ExecEnv where
  tradeId : String
  simSuccess : Bool
  slippage : ℚ
  hasCredentials : Bool
  orderSuccess : Bool

/-- String stored in Trade.outcome, trade.outcome = opportunity.recommendedBet. -/
def betSideString : BetSide → String
  | BetSide.YES => "YES"
  | BetSide.NO => "NO"

/-- AutoExecutor.executeOpportunity: validate, size, record a trade and execute
it in simulated or live mode; invalid or zero sized opportunities leave the
state untouched. -/
def executeOpportunity (env : ExecEnv) (limits : SafetyLimits) (simulationMode : Bool)
    (opportunity : BettingOpportunity) (state : AgentState) : AgentState :=
  match validateOpportunity limits opportunity with
  | some _ => state
  | none =>
    let betSize := calculatePositionSize limits opportunity state
    if betSize ≤ 0 then state
    else
      let trade : Trade :=
        { id := env.tradeId
          marketId := opportunity.market.id
          marketQuestion := opportunity.market.question
          outcome := betSideString opportunity.recommendedBet
          side := OrderSide.BUY
          shares := betSize / opportunity.outcome.price
          price := opportunity.outcome.price
          total := betSize
          status := TradeStatus.PENDING
          isSimulated := simulationMode }
      let result :=
        if simulationMode then
          executeSimulatedTrade env.simSuccess env.slippage trade opportunity state
        else
          executeLiveTrade env.hasCredentials env.orderSuccess env.simSuccess env.slippage
            trade opportunity state
      { result.2 with trades := result.1 :: result.2.trades }

/-- The auto execute loop body of AutoExecutor.executionCycle: execute the top
opportunities one after another, threading the state. -/
def executeOpportunities (env : ExecEnv) (limits : SafetyLimits) (simulationMode : Bool)
    (opportunities : List BettingOpportunity) (state : AgentState) : AgentState :=
  opportunities.foldl (fun s o => executeOpportunity env limits simulationMode o s) state

/-! ## Concrete fixtures -/

/-- DEFAULT_CONFIG of the dashboard: default safety limits and thresholds. -/
def cfgD : AgentConfig :=
  { safetyLimits := DEFAULT_SAFETY_LIMITS
    undervaluedThreshold := 0.30
    overvaluedThreshold := 0.75
    autoExecute := true
    simulationMode := true }

/-- A cheap Yes outcome, priced at 0.20. -/
def oCheap : Outcome := { id := "tok-yes", name := "Yes", price := 0.2 }

/-- A liquid active market carrying only the cheap Yes outcome. -/
def mCheap : Market :=
  { id := "mkt-cheap", question := "cheap?", liquidity := 5000, volume := 800
    outcomes := [oCheap], active := true, closed := false }

/-- The opportunity the heuristic scanner emits for `oCheap`:
estimated probability 0.2 + 0.3 * 0.3 = 0.29, expected value 0.45. -/
def oppCheap : BettingOpportunity :=
  { market := mCheap, outcome := oCheap, strategy := Strategy.UNDERVALUED
    recommendedBet := BetSide.YES, confidence := 0.29
    suggestedAmount := 0, expectedValue := 0.45 }

/-- An expensive Yes outcome, priced at 0.80. -/
def oDear : Outcome := { id := "tok-yes-dear", name := "Yes", price := 0.8 }

/-- A liquid active market carrying only the expensive Yes outcome. -/
def mDear : Market :=
  { id := "mkt-dear", question := "dear?", liquidity := 5000, volume := 800
    outcomes := [oDear], active := true, closed := false }

/-- The opportunity the heuristic scanner emits for `oDear`:
estimated probability 0.8 - 0.3 * 0.25 = 0.725, confidence 0.275,
expected value 0.275 * 4 - 0.725 = 0.375. -/
def oppDear : BettingOpportunity :=
  { market := mDear, outcome := oDear, strategy := Strategy.OVERVALUED
    recommendedBet := BetSide.NO, confidence := 0.275
    suggestedAmount := 0, expectedValue := 0.375 }

/-- A fresh state: bankroll 1000, no positions, no trades. -/
def stEmpty : AgentState :=
  { isRunning := true, bankroll := 1000, todayPnL := 0, totalPnL := 0
    positions := [], trades := [], opportunities := []
    safetyTriggered := false, safetyReason := none }

/-! ## C9: the mean reversion estimate against fair value -/

/-- x lies strictly between a and b (in either order). -/
def strictlyBetween (a b x : ℚ) : Prop :=
  (a < x ∧ x < b) ∨ (b < x ∧ x < a)

/-- C9 counterexample: at price 0.5, which lies in the open interval (0,1),
both branches of estimateTrueProbability return exactly 0.5, so the estimate
does not lie strictly between the price and 0.5. -/
theorem estimate_at_half_not_between :
    (0 : ℚ) < 0.5 ∧ (0.5 : ℚ) < 1
      ∧ estimateTrueProbability 0.5 Strategy.UNDERVALUED = 0.5
      ∧ estimateTrueProbability 0.5 Strategy.OVERVALUED = 0.5
      ∧ ¬ strictlyBetween 0.5 0.5 (estimateTrueProbability 0.5 Strategy.UNDERVALUED) := by
  refine ⟨by norm_num, by norm_num, by norm_num [estimateTrueProbability],
    by norm_num [estimateTrueProbability], ?_⟩
  simp only [strictlyBetween, estimateTrueProbability]
  norm_num

/-- C9 amended: for every price in (0,1) other than 0.5 (at exactly 0.5 both
branches return 0.5 itself, so nothing lies strictly between), the estimate of
either branch of estimateTrueProbability lies strictly between the price
and 0.5. -/
theorem estimate_strictly_between (price : ℚ) (strategy : Strategy)
    (h0 : 0 < price) (h1 : price < 1) (hne : price ≠ 0.5) :
    strictlyBetween price 0.5 (estimateTrueProbability price strategy) := by
  have e1 : estimateTrueProbability price Strategy.UNDERVALUED
      = price + (0.5 - price) * 0.3 := rfl
  have e2 : estimateTrueProbability price Strategy.OVERVALUED
      = price - (price - 0.5) * 0.25 := rfl
  cases strategy
  · rcases lt_or_gt_of_ne hne with h | h
    · exact Or.inl ⟨by rw [e1]; linarith, by rw [e1]; linarith⟩
    · exact Or.inr ⟨by rw [e1]; linarith, by rw [e1]; linarith⟩
  · rcases lt_or_gt_of_ne hne with h | h
    · exact Or.inl ⟨by rw [e2]; linarith, by rw [e2]; linarith⟩
    · exact Or.inr ⟨by rw [e2]; linarith, by rw [e2]; linarith⟩

/-- Witness for C9 amended at price 0.2. -/
theorem estimate_strictly_between_witness :
    strictlyBetween 0.2 0.5 (estimateTrueProbability 0.2 Strategy.UNDERVALUED) :=
  estimate_strictly_between 0.2 Strategy.UNDERVALUED (by norm_num) (by norm_num)
    (by norm_num)

/-! ## C2: what the sizer feeds into the Kelly formula -/

/-- C2: the scanner emits an OVERVALUED opportunity on the 0.80 market whose
predicted probability is 0.725 and whose confidence is 0.275; sizing it with a
bankroll of 1000 the implementation (which passes opportunity.confidence to
calculateKellyBet) suggests 100, while the Kelly rule of the specification
(odds = price/(1-price), p = 1 - predictedProbability for the NO bet,
half Kelly, clamp to [0, 0.10]) suggests 46.875. -/
theorem positionSizing_confidence_mismatch :
    analyzeOutcome cfgD mDear oDear = some oppDear
      ∧ estimateTrueProbability oDear.price Strategy.OVERVALUED = 0.725
      ∧ calculateKellyBet oppDear.confidence oppDear.outcome.price 1000 = 100
      ∧ kellyBetSpec 0.725 oppDear.outcome.price 1000 BetSide.NO = 46.875
      ∧ calculateKellyBet oppDear.confidence oppDear.outcome.price 1000
          ≠ kellyBetSpec 0.725 oppDear.outcome.price 1000 BetSide.NO := by
  refine ⟨?_, ?_, ?_, ?_, ?_⟩ <;>
    norm_num [analyzeOutcome, estimateTrueProbability, calculateKellyBet,
      kellyBetFraction, kellyBetSpec, cfgD, mDear, oDear, oppDear]

/-! ## C3: the safety breaker -/

/-- A state that is 51 dollars down today. -/
def stLoss : AgentState :=
  { isRunning := true, bankroll := 1000, todayPnL := -51, totalPnL := 0
    positions := [], trades := [], opportunities := []
    safetyTriggered := false, safetyReason := none }

/-- C3: isSafetyBreached reports breached exactly when the daily loss, total
exposure or bankroll condition holds, checked in that order with the first
match fixing the reason; for todayPnL = -51 against maxDailyLoss = 50 the
reason reads "Daily loss limit reached: $51.00 > $50". -/
theorem isSafetyBreached_spec :
    (∀ limits state, (isSafetyBreached limits state).isSome
        ↔ (state.todayPnL < -limits.maxDailyLoss
            ∨ limits.maxTotalExposure ≤ totalExposure state.positions
            ∨ state.bankroll < limits.maxBetSize))
      ∧ (∀ limits state, state.todayPnL < -limits.maxDailyLoss →
          isSafetyBreached limits state
            = some ("Daily loss limit reached: $" ++ toFixed2 |state.todayPnL| ++ " > $"
                ++ jsNumToString limits.maxDailyLoss))
      ∧ (∀ limits state, ¬ state.todayPnL < -limits.maxDailyLoss →
          limits.maxTotalExposure ≤ totalExposure state.positions →
          isSafetyBreached limits state
            = some ("Maximum exposure reached: $" ++ toFixed2 (totalExposure state.positions)))
      ∧ (∀ limits state, ¬ state.todayPnL < -limits.maxDailyLoss →
          ¬ limits.maxTotalExposure ≤ totalExposure state.positions →
          state.bankroll < limits.maxBetSize →
          isSafetyBreached limits state
            = some ("Bankroll too low: $" ++ toFixed2 state.bankroll))
      ∧ isSafetyBreached DEFAULT_SAFETY_LIMITS stLoss
          = some "Daily loss limit reached: $51.00 > $50" := by
  refine ⟨?_, ?_, ?_, ?_, ?_⟩
  · intro limits state
    rw [isSafetyBreached]
    split_ifs with h1 h2 h3 <;> simp [*]
  · intro limits state h
    rw [isSafetyBreached, if_pos h]
  · intro limits state h1 h2
    rw [isSafetyBreached, if_neg h1, if_pos h2]
  · intro limits state h1 h2 h3
    rw [isSafetyBreached, if_neg h1, if_neg h2, if_pos h3]
  · have habs : |stLoss.todayPnL| = 51 := by norm_num [stLoss]
    have hfix : toFixed2 51 = "51.00" := by
      rw [toFixed2, if_neg (by norm_num)]
      have hfl : ⌊(51 : ℚ) * 100 + 1 / 2⌋ = 5100 := by norm_num
      rw [hfl]
      decide
    have hnum : jsNumToString (50 : ℚ) = "50" := by decide
    have hpos : stLoss.todayPnL < -DEFAULT_SAFETY_LIMITS.maxDailyLoss := by
      norm_num [stLoss, DEFAULT_SAFETY_LIMITS]
    rw [isSafetyBreached, if_pos hpos, habs, hfix]
    norm_num [DEFAULT_SAFETY_LIMITS, hnum]
    decide

/-- Witness for C3: the daily loss branch applied to the concrete scenario. -/
theorem isSafetyBreached_spec_witness :
    isSafetyBreached DEFAULT_SAFETY_LIMITS stLoss
      = some ("Daily loss limit reached: $" ++ toFixed2 |stLoss.todayPnL| ++ " > $"
          ++ jsNumToString DEFAULT_SAFETY_LIMITS.maxDailyLoss) :=
  isSafetyBreached_spec.2.1 DEFAULT_SAFETY_LIMITS stLoss
    (by norm_num [stLoss, DEFAULT_SAFETY_LIMITS])

/-! ## C4: bounds of the position sizer -/

/-- The two decimal floor never rounds up. -/
theorem floor2_le (q : ℚ) : floor2 q ≤ q := by
  rw [floor2, div_le_iff₀ (by norm_num : (0 : ℚ) < 100)]
  exact Int.floor_le _

/-- A position worth 50 dollars of cost basis on market mkt-big. -/
def posBig : Position :=
  { marketId := "mkt-big", marketQuestion := "big?", outcome := "YES"
    shares := 100, avgPrice := 0.5, currentPrice := 0.5, pnl := 0, pnlPercent := 0
    isSimulated := true }

/-- A state with bankroll 100 holding `posBig`; the per market cap
100 * 0.1 = 10 is already exceeded by the 50 dollar cost basis. -/
def stBig : AgentState :=
  { isRunning := true, bankroll := 100, todayPnL := 0, totalPnL := 0
    positions := [posBig], trades := [], opportunities := []
    safetyTriggered := false, safetyReason := none }

/-- A fresh opportunity on market mkt-big at price 0.5. -/
def oppBig : BettingOpportunity :=
  { market := { id := "mkt-big", question := "big?", liquidity := 5000, volume := 0
                outcomes := [], active := true, closed := false }
    outcome := { id := "tok-big", name := "Yes", price := 0.5 }
    strategy := Strategy.UNDERVALUED, recommendedBet := BetSide.YES
    confidence := 0.5, suggestedAmount := 0, expectedValue := 0.1 }

/-- C4 counterexample: with bankroll 100 and a 50 dollar position on the same
market, the remaining market exposure is -40, so the minimum of the four caps
is -40; the returned size clamps to 0, which is not at most that minimum. -/
theorem positionSize_min_bound_fails :
    (0 : ℚ) ≤ stBig.bankroll
      ∧ calculatePositionSize DEFAULT_SAFETY_LIMITS oppBig stBig = 0
      ∧ stBig.bankroll * DEFAULT_SAFETY_LIMITS.maxPositionPercent
          - totalExposure (stBig.positions.filter
              (fun p => p.marketId == oppBig.market.id)) = -40
      ∧ ¬ calculatePositionSize DEFAULT_SAFETY_LIMITS oppBig stBig
          ≤ min DEFAULT_SAFETY_LIMITS.maxBetSize (min (stBig.bankroll * 0.05)
              (min (DEFAULT_SAFETY_LIMITS.maxTotalExposure - totalExposure stBig.positions)
                (stBig.bankroll * DEFAULT_SAFETY_LIMITS.maxPositionPercent
                  - totalExposure (stBig.positions.filter
                      (fun p => p.marketId == oppBig.market.id))))) := by
  refine ⟨by norm_num [stBig], ?_, ?_, ?_⟩ <;>
    norm_num [calculatePositionSize, isSafetyBreached, calculateKellyBet,
      kellyBetFraction, totalExposure, floor2, DEFAULT_SAFETY_LIMITS,
      stBig, posBig, oppBig, List.filter]

/-- C4 amended: the clamped Kelly fraction always lies in [0, 0.10], the
returned size is never negative, and it is at most each of the four caps
(maxBetSize, bankroll * 0.05, remaining total exposure, remaining market
exposure) whenever that cap is nonnegative; a negative cap makes the minimum
negative, the floored value clamps to 0 and the bound cannot hold. -/
theorem positionSize_bounds_amended (limits : SafetyLimits)
    (opportunity : BettingOpportunity) (state : AgentState)
    (hb : 0 ≤ state.bankroll) :
    0 ≤ kellyBetFraction opportunity.confidence opportunity.outcome.price
      ∧ kellyBetFraction opportunity.confidence opportunity.outcome.price ≤ 0.1
      ∧ 0 ≤ calculatePositionSize limits opportunity state
      ∧ (0 ≤ limits.maxBetSize →
          calculatePositionSize limits opportunity state ≤ limits.maxBetSize)
      ∧ (0 ≤ state.bankroll * 0.05 →
          calculatePositionSize limits opportunity state ≤ state.bankroll * 0.05)
      ∧ (0 ≤ limits.maxTotalExposure - totalExposure state.positions →
          calculatePositionSize limits opportunity state
            ≤ limits.maxTotalExposure - totalExposure state.positions)
      ∧ (0 ≤ state.bankroll * limits.maxPositionPercent
            - totalExposure (state.positions.filter
                (fun p => p.marketId == opportunity.market.id)) →
          calculatePositionSize limits opportunity state
            ≤ state.bankroll * limits.maxPositionPercent
              - totalExposure (state.positions.filter
                  (fun p => p.marketId == opportunity.market.id))) := by
  refine ⟨le_max_left _ _, ?_, ?_, ?_, ?_, ?_, ?_⟩
  · simp only [kellyBetFraction]
    exact max_le (by norm_num) (min_le_right _ _)
  all_goals simp only [calculatePositionSize]
  all_goals split_ifs
  · exact le_refl 0
  · exact le_max_left _ _
  · intro h; exact h
  · intro h
    refine max_le h (le_trans (floor2_le _) ?_)
    exact le_trans (min_le_right _ _) (min_le_left _ _)
  · intro h; exact h
  · intro h
    refine max_le h (le_trans (floor2_le _) ?_)
    exact le_trans (min_le_right _ _) (le_trans (min_le_right _ _)
      (le_trans (min_le_right _ _) (min_le_right _ _)))
  · intro h; exact h
  · intro h
    refine max_le h (le_trans (floor2_le _) ?_)
    exact le_trans (min_le_right _ _) (le_trans (min_le_right _ _) (min_le_left _ _))
  · intro h; exact h
  · intro h
    refine max_le h (le_trans (floor2_le _) ?_)
    exact le_trans (min_le_right _ _) (le_trans (min_le_right _ _)
      (le_trans (min_le_right _ _) (min_le_left _ _)))

/-- Witness for C4 amended: on an empty portfolio with bankroll 1000 the
sized bet for the cheap opportunity respects the maxBetSize cap. -/
theorem positionSize_bounds_amended_witness :
    calculatePositionSize DEFAULT_SAFETY_LIMITS oppCheap stEmpty
      ≤ DEFAULT_SAFETY_LIMITS.maxBetSize :=
  (positionSize_bounds_amended DEFAULT_SAFETY_LIMITS oppCheap stEmpty
      (by norm_num [stEmpty])).2.2.2.1 (by norm_num [DEFAULT_SAFETY_LIMITS])

/-! ## C5: the minimum edge filter -/

/-- C5: both conversion paths enforce a strict minimum edge and both
thresholds (0.05 for the heuristic scanner, 0.03 for the LLM conversion) lie
in the reference range [0.02, 0.05]: every emitted opportunity has an
expected value strictly above its threshold. -/
theorem minEdge_filter :
    ((0.02 : ℚ) ≤ 0.05 ∧ (0.05 : ℚ) ≤ 0.05 ∧ (0.02 : ℚ) ≤ 0.03 ∧ (0.03 : ℚ) ≤ 0.05)
      ∧ (∀ config market outcome opportunity,
          analyzeOutcome config market outcome = some opportunity →
          0.05 < opportunity.expectedValue)
      ∧ (∀ analysis opportunity,
          analysisToOpportunity analysis = some opportunity →
          0.03 < opportunity.expectedValue) := by
  refine ⟨by norm_num, ?_, ?_⟩
  · intro config market outcome opportunity h
    simp only [analyzeOutcome] at h
    split at h
    · rename_i o heq
      rw [Option.some.injEq] at h
      subst h
      split_ifs at heq with hp hev
      rw [Option.some.injEq] at heq
      rw [← heq]
      exact hev
    · split_ifs at h with hp hev
      rw [Option.some.injEq] at h
      rw [← h]
      exact hev
  · intro analysis opportunity h
    by_cases hskip : analysis.recommendation = Recommendation.SKIP
    · simp [analysisToOpportunity, hskip] at h
    · simp only [analysisToOpportunity, if_neg hskip] at h
      split at h
      · exact Option.noConfusion h
      · split_ifs at h <;>
          first
          | exact Option.noConfusion h
          | (rw [Option.some.injEq] at h
             rw [← h]
             exact not_le.mp (by assumption))

/-- Witness for C5: the cheap market opportunity clears the 0.05 edge. -/
theorem minEdge_filter_witness : (0.05 : ℚ) < oppCheap.expectedValue :=
  minEdge_filter.2.1 cfgD mCheap oCheap oppCheap
    (by norm_num [analyzeOutcome, estimateTrueProbability, cfgD, mCheap, oCheap, oppCheap])

/-! ## C1: heuristic scanner opportunities never pass validation -/

/-- Any opportunity with confidence below 0.55 fails validateOpportunity:
each earlier check already returns a reason, and when they all pass the
confidence check fires. -/
theorem validateOpportunity_isSome_of_lowConfidence (limits : SafetyLimits)
    (opportunity : BettingOpportunity) (hc : opportunity.confidence < 0.55) :
    (validateOpportunity limits opportunity).isSome = true := by
  rw [validateOpportunity]
  split_ifs with h1 h2 h3
  · rfl
  · rfl
  · rfl
  · rfl

/-- executeOpportunity returns the state unchanged when validation fails. -/
theorem executeOpportunity_of_invalid (env : ExecEnv) (limits : SafetyLimits)
    (simulationMode : Bool) (opportunity : BettingOpportunity) (state : AgentState)
    (h : (validateOpportunity limits opportunity).isSome = true) :
    executeOpportunity env limits simulationMode opportunity state = state := by
  obtain ⟨r, hr⟩ := Option.isSome_iff_exists.mp h
  rw [executeOpportunity, hr]

/-- A fixed execution environment for witnesses. -/
def envD : ExecEnv :=
  { tradeId := "trade-1", simSuccess := true, slippage := 1.005
    hasCredentials := false, orderSuccess := false }

/-- C1: with the default thresholds 0.30 and 0.75, every opportunity the
heuristic scanner emits has confidence equal to the mean reversion estimate
(UNDERVALUED) or its complement (OVERVALUED), bounded by 0.36 and 0.3125
respectively, hence below the 0.55 validation threshold, so
validateOpportunity rejects it and executeOpportunity leaves the state
untouched. -/
theorem heuristicOpportunity_fails_validation
    (config : AgentConfig) (limits : SafetyLimits) (env : ExecEnv)
    (simulationMode : Bool) (market : Market) (outcome : Outcome)
    (opportunity : BettingOpportunity) (state : AgentState)
    (hu : config.undervaluedThreshold = 0.30) (ho : config.overvaluedThreshold = 0.75)
    (h : analyzeOutcome config market outcome = some opportunity) :
    (opportunity.strategy = Strategy.UNDERVALUED →
        opportunity.confidence = outcome.price + (0.5 - outcome.price) * 0.3
          ∧ opportunity.confidence < 0.36)
      ∧ (opportunity.strategy = Strategy.OVERVALUED →
          opportunity.confidence = 1 - (outcome.price - (outcome.price - 0.5) * 0.25)
            ∧ opportunity.confidence < 0.3125)
      ∧ opportunity.confidence < 0.55
      ∧ (validateOpportunity limits opportunity).isSome = true
      ∧ executeOpportunity env limits simulationMode opportunity state = state := by
  have main :
      (opportunity.strategy = Strategy.UNDERVALUED →
          opportunity.confidence = outcome.price + (0.5 - outcome.price) * 0.3
            ∧ opportunity.confidence < 0.36)
        ∧ (opportunity.strategy = Strategy.OVERVALUED →
            opportunity.confidence = 1 - (outcome.price - (outcome.price - 0.5) * 0.25)
              ∧ opportunity.confidence < 0.3125)
        ∧ opportunity.confidence < 0.55 := by
    simp only [analyzeOutcome, estimateTrueProbability] at h
    split at h
    · rename_i o heq
      rw [Option.some.injEq] at h
      subst h
      split_ifs at heq with hp hev
      rw [Option.some.injEq] at heq
      subst heq
      rw [hu] at hp
      refine ⟨fun _ => ⟨rfl, by linarith⟩, fun hstrat => ?_, by linarith⟩
      exact absurd hstrat (by simp)
    · split_ifs at h with hp hev
      rw [Option.some.injEq] at h
      subst h
      rw [ho] at hp
      refine ⟨fun hstrat => ?_, fun _ => ⟨by ring_nf, by linarith⟩, by linarith⟩
      exact absurd hstrat (by simp)
  refine ⟨main.1, main.2.1, main.2.2, ?_, ?_⟩
  · exact validateOpportunity_isSome_of_lowConfidence limits opportunity main.2.2
  · exact executeOpportunity_of_invalid env limits simulationMode opportunity state
      (validateOpportunity_isSome_of_lowConfidence limits opportunity main.2.2)

/-- Witness for C1: the cheap market opportunity is rejected and skipped. -/
theorem heuristicOpportunity_fails_validation_witness :
    (validateOpportunity DEFAULT_SAFETY_LIMITS oppCheap).isSome = true
      ∧ executeOpportunity envD DEFAULT_SAFETY_LIMITS true oppCheap stEmpty = stEmpty := by
  have h := heuristicOpportunity_fails_validation cfgD DEFAULT_SAFETY_LIMITS envD true
    mCheap oCheap oppCheap stEmpty rfl rfl
    (by norm_num [analyzeOutcome, estimateTrueProbability, cfgD, mCheap, oCheap, oppCheap])
  exact ⟨h.2.2.2.1, h.2.2.2.2⟩

/-! ## C8: failed executions leave the portfolio untouched -/

/-- C8: a rejected simulated trade and a rejected live order both come back
with status FAILED and the very same state (bankroll, positions and trade log
unchanged), and the execution loop simply moves on to the next opportunity. -/
theorem tradeFailure_no_mutation :
    (∀ (slippage : ℚ) (trade : Trade) (opportunity : BettingOpportunity)
        (state : AgentState),
        executeSimulatedTrade false slippage trade opportunity state
          = ({ trade with status := TradeStatus.FAILED }, state))
      ∧ (∀ (simSuccess : Bool) (slippage : ℚ) (trade : Trade)
          (opportunity : BettingOpportunity) (state : AgentState),
          executeLiveTrade true false simSuccess slippage trade opportunity state
            = ({ trade with status := TradeStatus.FAILED }, state))
      ∧ (∀ (env : ExecEnv) (limits : SafetyLimits) (simulationMode : Bool)
          (opportunity : BettingOpportunity) (rest : List BettingOpportunity)
          (state : AgentState),
          executeOpportunities env limits simulationMode (opportunity :: rest) state
            = executeOpportunities env limits simulationMode rest
                (executeOpportunity env limits simulationMode opportunity state)) :=
  ⟨fun _ _ _ _ => rfl, fun _ _ _ _ _ => rfl, fun _ _ _ _ _ _ => rfl⟩

/-! ## C7: the cost basis update merges trades -/

/-- The single trade combining the share count and the total cost of two
trades; its price is the blended cost per share. -/
def mergedTrade (t1 t2 : Trade) : Trade :=
  { t1 with
      shares := t1.shares + t2.shares
      total := t1.total + t2.total
      price := (t1.total + t2.total) / (t1.shares + t2.shares) }

/-- The fields of a position compared by C7: key, share count and average price. -/
def positionCore (p : Position) : String × String × ℚ × ℚ :=
  (p.marketId, p.outcome, p.shares, p.avgPrice)

/-- C7: adding two FILLED trades with the same key one after another gives the
same shares and average price as adding the single merged trade, on any
portfolio with nonnegative share counts, provided the first trade is
consistent (total = shares * price, the invariant the executor maintains). -/
theorem addPosition_merge (ps : List Position) (t1 t2 : Trade)
    (hm : t2.marketId = t1.marketId) (ho : t2.outcome = t1.outcome)
    (h1 : t1.total = t1.shares * t1.price)
    (hs1 : 0 < t1.shares) (hs2 : 0 < t2.shares)
    (hps : ∀ p ∈ ps, 0 ≤ p.shares) :
    (addPosition (addPosition ps t1) t2).map positionCore
      = (addPosition ps (mergedTrade t1 t2)).map positionCore := by
  induction ps with
  | nil =>
    simp only [addPosition, newPositionOfTrade, mergedTrade]
    rw [if_pos ⟨hm.symm, ho.symm⟩]
    simp only [List.map_cons, List.map_nil, positionCore]
    rw [h1]
  | cons p ps ih =>
    by_cases hkey : p.marketId = t1.marketId ∧ p.outcome = t1.outcome
    · have hp0 : (0 : ℚ) ≤ p.shares := hps p (List.mem_cons_self p ps)
      have hS1 : p.shares + t1.shares ≠ 0 := ne_of_gt (by linarith)
      have hS2 : p.shares + t1.shares + t2.shares ≠ 0 := ne_of_gt (by linarith)
      simp only [addPosition]
      rw [if_pos hkey]
      simp only [addPosition]
      rw [if_pos ⟨hkey.1.trans hm.symm, hkey.2.trans ho.symm⟩]
      rw [if_pos (show p.marketId = (mergedTrade t1 t2).marketId
            ∧ p.outcome = (mergedTrade t1 t2).outcome from ⟨hkey.1, hkey.2⟩)]
      simp only [List.map_cons, positionCore, List.cons.injEq, Prod.mk.injEq, mergedTrade]
      refine ⟨⟨trivial, trivial, by ring, ?_⟩, trivial⟩
      field_simp
      ring
    · have hkey2 : ¬(p.marketId = t2.marketId ∧ p.outcome = t2.outcome) := by
        rw [hm, ho]
        exact hkey
      simp only [addPosition]
      rw [if_neg hkey]
      simp only [addPosition]
      rw [if_neg hkey2]
      rw [if_neg (show ¬(p.marketId = (mergedTrade t1 t2).marketId
            ∧ p.outcome = (mergedTrade t1 t2).outcome) from hkey)]
      simp only [List.map_cons, List.cons.injEq]
      exact ⟨trivial, ih (fun q hq => hps q (List.mem_cons_of_mem p hq))⟩

/-- The first fill of the C7 scenario: 10 shares at price 0.20, two dollars. -/
def tTen : Trade :=
  { id := "t1", marketId := "mkt-acc", marketQuestion := "acc?", outcome := "YES"
    side := OrderSide.BUY, shares := 10, price := 0.2, total := 2
    status := TradeStatus.FILLED, isSimulated := true }

/-- The second fill of the C7 scenario: 5 shares at price 0.30, 1.50 dollars. -/
def tFive : Trade :=
  { id := "t2", marketId := "mkt-acc", marketQuestion := "acc?", outcome := "YES"
    side := OrderSide.BUY, shares := 5, price := 0.3, total := 1.5
    status := TradeStatus.FILLED, isSimulated := true }

/-- Witness for C7: the two concrete fills of the spec scenario merge, and the
sequential average price equals (10 * 0.20 + 5 * 0.30) / 15. -/
theorem addPosition_merge_witness :
    (addPosition (addPosition [] tTen) tFive).map positionCore
        = (addPosition [] (mergedTrade tTen tFive)).map positionCore
      ∧ (addPosition (addPosition [] tTen) tFive).map (fun p => p.avgPrice)
        = [(10 * 0.20 + 5 * 0.30) / 15] := by
  constructor
  · exact addPosition_merge [] tTen tFive rfl rfl (by norm_num [tTen])
      (by norm_num [tTen]) (by norm_num [tFive]) (fun p hp => absurd hp (List.not_mem_nil p))
  · norm_num [addPosition, newPositionOfTrade, tTen, tFive]

/-! ## C6: what the scanner filters, scores and returns -/

/-- analyzeOutcome embeds the analyzed market and outcome into the emitted
opportunity. -/
theorem analyzeOutcome_market_outcome (config : AgentConfig) (market : Market)
    (outcome : Outcome) (opportunity : BettingOpportunity)
    (h : analyzeOutcome config market outcome = some opportunity) :
    opportunity.market = market ∧ opportunity.outcome = outcome := by
  simp only [analyzeOutcome] at h
  split at h
  · rename_i o heq
    rw [Option.some.injEq] at h
    subst h
    split_ifs at heq with hp hev
    rw [Option.some.injEq] at heq
    rw [← heq]
    exact ⟨rfl, rfl⟩
  · split_ifs at h with hp hev
    rw [Option.some.injEq] at h
    rw [← h]
    exact ⟨rfl, rfl⟩

instance : IsTotal BettingOpportunity evGE :=
  ⟨fun a b => le_total b.expectedValue a.expectedValue⟩

instance : IsTrans BettingOpportunity evGE :=
  ⟨fun _ _ _ hab hbc => le_trans hbc hab⟩

/-- The complementary No outcome of the two outcome market, priced at 0.80. -/
def oNo : Outcome := { id := "tok-no", name := "No", price := 0.8 }

/-- A liquid active market with a Yes outcome at 0.20 and a No outcome
at 0.80. -/
def mTwo : Market :=
  { id := "mkt-two", question := "two?", liquidity := 5000, volume := 800
    outcomes := [oCheap, oNo], active := true, closed := false }

/-- C6 counterexample: on a market with outcomes Yes at 0.20 and No at 0.80
the scanner emits two opportunities, one of them on the No outcome, so it does
not score only the reference Yes outcome. -/
theorem scan_scores_all_outcomes :
    (scanForOpportunities cfgD [mTwo]).map (fun o => o.outcome.name) = ["Yes", "No"]
      ∧ ¬ ∀ opportunity ∈ scanForOpportunities cfgD [mTwo],
          opportunity.outcome.name = "Yes" := by
  have hmap : (scanForOpportunities cfgD [mTwo]).map (fun o => o.outcome.name)
      = ["Yes", "No"] := by
    norm_num [scanForOpportunities, analyzeOutcome, estimateTrueProbability,
      List.insertionSort, List.orderedInsert, evGE, List.filter, List.flatMap,
      List.filterMap, cfgD, DEFAULT_SAFETY_LIMITS, mTwo, oCheap, oNo]
  refine ⟨hmap, fun hall => ?_⟩
  have hno : "No" ∈ (scanForOpportunities cfgD [mTwo]).map (fun o => o.outcome.name) := by
    rw [hmap]
    simp
  rw [List.mem_map] at hno
  obtain ⟨o, hoMem, hoName⟩ := hno
  have := hall o hoMem
  rw [this] at hoName
  exact absurd hoName (by decide)

/-- C6 amended: scanForOpportunities drops every market with liquidity below
minLiquidity and every inactive or closed market, scores every outcome of each
surviving market (not only the reference Yes outcome), and returns the
opportunities sorted by descending expected value. -/
theorem scan_filter_sort_amended :
    (∀ config markets opportunity,
        opportunity ∈ scanForOpportunities config markets →
        config.safetyLimits.minLiquidity ≤ opportunity.market.liquidity
          ∧ opportunity.market.active = true ∧ opportunity.market.closed = false)
      ∧ (∀ config markets (market : Market) (outcome : Outcome) opportunity,
          market ∈ markets →
          config.safetyLimits.minLiquidity ≤ market.liquidity →
          market.active = true → market.closed = false →
          outcome ∈ market.outcomes →
          analyzeOutcome config market outcome = some opportunity →
          opportunity ∈ scanForOpportunities config markets)
      ∧ (∀ config markets,
          List.Sorted evGE (scanForOpportunities config markets)) := by
  refine ⟨?_, ?_, ?_⟩
  · intro config markets opportunity hmem
    simp only [scanForOpportunities, List.mem_insertionSort, List.mem_flatMap,
      List.mem_filter, List.mem_filterMap, Bool.and_eq_true, decide_eq_true_eq,
      Bool.not_eq_true'] at hmem
    obtain ⟨m, ⟨⟨hmMem, hliq, hact, hcl⟩, o, hoMem, hEq⟩⟩ := hmem
    obtain ⟨hm, _⟩ := analyzeOutcome_market_outcome config m o opportunity hEq
    rw [hm]
    exact ⟨hliq, hact, hcl⟩
  · intro config markets market outcome opportunity hmMem hliq hact hcl hoMem hEq
    simp only [scanForOpportunities, List.mem_insertionSort, List.mem_flatMap,
      List.mem_filter, Bool.and_eq_true, decide_eq_true_eq, Bool.not_eq_true']
    exact ⟨market, ⟨hmMem, hliq, hact, hcl⟩, List.mem_filterMap.mpr ⟨outcome, hoMem, hEq⟩⟩
  · intro config markets
    exact List.sorted_insertionSort evGE _

/-- Witness for C6 amended: the No style opportunity of the expensive market
is produced by the scan of that single market. -/
theorem scan_filter_sort_amended_witness :
    oppDear ∈ scanForOpportunities cfgD [mDear] :=
  scan_filter_sort_amended.2.1 cfgD [mDear] mDear oDear oppDear
    (by simp)
    (by norm_num [cfgD, DEFAULT_SAFETY_LIMITS, mDear])
    rfl rfl
    (by simp [mDear, oDear])
    (by norm_num [analyzeOutcome, estimateTrueProbability, cfgD, mDear, oDear, oppDear])

end Clawdpm
